import Mathlib

/-!
Verification development for `eval/ddpm/generate_recons.py` of the DiffuseVAE
repository: a shallow embedding of the reconstruction-generation orchestration
script (config parsing, checkpoint loading policy, dataset pipeline, device
configuration, batch loading, and the predict driver), together with theorems
settling the specification's claims about it.
-/

namespace GenerateRecons

/-! ## Config Parser (`__parse_str`)

Source:
```
def __parse_str(s):
    split = s.split(",")
    return [int(s) for s in split if s != "" and s is not None]
```
Strings are embedded as their character lists.  Python's `int(token)` raises
`ValueError` on a malformed token, so its embedding is `Option`-valued.  The
elements of `s.split(",")` are always strings (never `None`), so the guard
`s != "" and s is not None` reduces to non-emptiness of the token. -/

/-- Embedding of Python `str.split(",")`: splits a character list at every
comma, keeping empty fields (so leading, trailing and doubled commas produce
empty tokens, and splitting the empty string yields one empty token). -/
def splitComma : List Char → List (List Char)
  | [] => [[]]
  | c :: cs =>
    if c = ',' then [] :: splitComma cs
    else
      match splitComma cs with
      | [] => [[c]]
      | t :: ts => (c :: t) :: ts

/-- Decimal digits of a token, accumulated; `none` until at least one digit is
seen, and `none` on any non-digit character. -/
def parseDigits : List Char → Option Nat → Option Nat
  | [], acc => acc
  | c :: cs, acc =>
    if c.isDigit then parseDigits cs (some ((acc.getD 0) * 10 + (c.toNat - 48)))
    else none

/-- Embedding of Python `int(t)` on a token: an optional sign followed by at
least one decimal digit parses to the integer; anything else is `none`,
modelling a raised `ValueError`. -/
def pyInt (t : List Char) : Option Int :=
  match t with
  | '-' :: rest => (parseDigits rest none).map (fun n => -(n : Int))
  | '+' :: rest => (parseDigits rest none).map (fun n => (n : Int))
  | _ => (parseDigits t none).map (fun n => (n : Int))

/-- Embedding of `__parse_str` on a string argument: split on commas, keep the
non-empty tokens, parse each with `int`.  A `none` result models a raised
`ValueError` from a malformed non-empty token. -/
def parse_str (s : String) : Option (List Int) :=
  ((splitComma s.data).filter (fun t => t ≠ [])).mapM pyInt

/-- Embedding of a call `__parse_str(x)` whose argument may be Python `None`:
`None.split(",")` raises `AttributeError` before any token handling, so the
`none` branch is an error. -/
def parse_str_py : Option String → Except String (List Int)
  | none => .error "AttributeError: NoneType object has no attribute split"
  | some s =>
    match parse_str s with
    | some l => .ok l
    | none => .error "ValueError: invalid literal for int"

/-- The non-empty tokens of a comma-separated string, in order. -/
def nonEmptyTokens (s : String) : List (List Char) :=
  (splitComma s.data).filter (fun t => t ≠ [])

/-! ## Checkpoint loading policy

The composite wrapper is restored with
`DDPMWrapper.load_from_checkpoint(..., strict=False)` (source lines 77–86); the
`NOTE` above that call records that `strict=False` is used because the VAE
parameters are not included in the pretrained DDPM state dict.  The loader
itself lives outside `src/`. -/

/-- Modelled from the spec: the relaxed (`strict=False`) checkpoint load for the
composite wrapper — load every named parameter present in the snapshot into the
freshly constructed model, collect the set of model parameters the snapshot
does not provide, and tolerate that set only when every member is attributable
to the declared optional (VAE) parameter group; any other missing parameter is
fatal. -/
def relaxed_load (modelParams vaeParams snapshot : List String) :
    Except String Unit :=
  let missing := modelParams.filter (fun p => decide (p ∉ snapshot))
  if missing.all (fun p => decide (p ∈ vaeParams)) then .ok ()
  else .error "missing parameter not attributable to the VAE substructure"

/-- The composite wrapper's parameter set is the diffusion-network parameters
together with the attached VAE substructure's parameters; loading it relaxes
matching for the VAE group only. -/
def composite_load (diffusionParams vaeParams snapshot : List String) :
    Except String Unit :=
  relaxed_load (diffusionParams ++ vaeParams) vaeParams snapshot

/-! ## Tensors and the noise dataset

`ddpm_latent_dataset = TensorDataset(torch.randn(n_samples, 3, image_size,
image_size))` (source lines 92–94).  `torch.randn` and `TensorDataset` live
outside the repository; the spec describes the dataset as exactly `n_samples`
items of shape `(3, image_size, image_size)` of standard-normal draws, seeded
deterministically by the global seed set at process start. -/

/-- A tensor: a shape together with flattened contents.  Floating-point sample
values are embedded as the integer outputs of the seeded generator. -/
structure Tensor where
  shape : List Nat
  data : List Int
  deriving Repr, DecidableEq

/-- Modelled from the spec: the standard-normal sampler as a deterministic
function of the global seed and the flat element index (the distributional
statement itself is not embedded; determinism and shape are). -/
def normalDraw (seed i : Nat) : Int :=
  ((seed * 6364136223846793005 + i * 1442695040888963407 + 1013904223) %
    18446744073709551616 : Nat)

/-- Modelled from the spec:
`TensorDataset(torch.randn(n_samples, 3, image_size, image_size))` — the noise
dataset of exactly `n_samples` items, item `i` being the `(3, image_size,
image_size)` slice of the seeded normal draw along the first dimension. -/
def ddpm_latent_dataset (seed n_samples image_size : Nat) : List Tensor :=
  (List.range n_samples).map (fun i =>
    { shape := [3, image_size, image_size]
      data := (List.range (3 * image_size * image_size)).map
        (fun j => normalDraw seed (i * (3 * image_size * image_size) + j)) })

/-! ## Image dataset, zipping, batching -/

/-- Modelled from the spec: `ReconstructionDataset(root, norm, subsample_size)`
(`datasets/recons.py`, not under `src/`) — the on-disk image dataset truncated
or subsampled down to at most `subsample_size` items; `images` stands for the
dataset the root directory yields. -/
def ReconstructionDataset {α : Type} (images : List α) (subsample_size : Nat) :
    List α :=
  images.take subsample_size

/-- Modelled from the spec: `ZipDataset(d1, d2)` (`datasets/latent.py`, not
under `src/`) — positional pairing of two datasets, item `i` being
`(d1[i], d2[i])`, with length the minimum of the two lengths. -/
def ZipDataset {α β : Type} (d1 : List α) (d2 : List β) : List (α × β) :=
  d1.zip d2

/-- The predict dataset of the script (source lines 89–95): the subsampled
image dataset zipped with the noise dataset. -/
def pred_dataset {α : Type} (images : List α) (seed n_samples image_size : Nat) :
    List (α × Tensor) :=
  ZipDataset (ReconstructionDataset images n_samples)
    (ddpm_latent_dataset seed n_samples image_size)

/-- Fuel-driven splitting of a list into consecutive groups of `B` items; the
fuel bounds the recursion depth and is always instantiated with the list's
length. -/
def chunksGo {α : Type} (B : Nat) : Nat → List α → List (List α)
  | 0, _ => []
  | _, [] => []
  | fuel + 1, x :: xs => (x :: xs).take B :: chunksGo B fuel ((x :: xs).drop B)

/-- Modelled from the spec: the batch sequence emitted by
`DataLoader(pred_dataset, batch_size=batch_size, drop_last=False, ...,
shuffle=False, ...)` (source lines 111–119): consecutive groups of
`batch_size` items in dataset order, the final partial group retained. -/
def dataLoaderBatches {α : Type} (B : Nat) (l : List α) : List (List α) :=
  chunksGo B l.length l

/-! ## Device / execution configurator (source lines 98–108) -/

/-- The execution options accumulated in `test_kwargs` and `loader_kws`; an
absent dictionary key is `none`. -/
structure ExecConfig where
  gpus : Option (List Int)
  tpu_cores : Option Nat
  persistent_workers : Option Bool
  deriving Repr, DecidableEq

/-- Embedding of `device.startswith("gpu")`. -/
def startsWithGpu : List Char → Bool
  | 'g' :: 'p' :: 'u' :: _ => true
  | _ => false

/-- The characters after the first colon of the specifier, or `[]` when there
is no colon. -/
def afterColon : List Char → List Char
  | [] => []
  | c :: cs => if c = ':' then cs else afterColon cs

/-- Modelled from the spec: `configure_device` (`util.py`, not under `src/`)
parses the accelerator indices trailing the `gpu:` prefix of the device
specifier, e.g. `"gpu:0,1"` yields ids `[0, 1]`. -/
def configure_device_ids (device : String) : List Int :=
  ((splitComma (afterColon device.data)).filter (fun t => t ≠ [])).filterMap
    pyInt

/-- Embedding of the device-dispatch block (source lines 98–108): a specifier
starting with `gpu` configures the parsed accelerator ids and persistent data
workers; exactly `tpu` configures 8 TPU cores; anything else sets no backend
options. -/
def setup_devices (device : String) : ExecConfig :=
  if startsWithGpu device.data then
    { gpus := some (configure_device_ids device)
      tpu_cores := none
      persistent_workers := some true }
  else if device = "tpu" then
    { gpus := none, tpu_cores := some 8, persistent_workers := none }
  else
    { gpus := none, tpu_cores := none, persistent_workers := none }

/-! ## Decoder construction and the EMA copy (source lines 46–73) -/

/-- The `SuperResModel` constructed at source lines 46–56, embedded as its
construction arguments plus a parameter vector; the float dropout scalar is
embedded as a rational. -/
structure SuperResModel where
  in_channels : Nat
  model_channels : Nat
  out_channels : Nat
  num_res_blocks : Nat
  attention_resolutions : List Int
  channel_mult : List Int
  use_checkpoint : Bool
  dropout : Rat
  num_heads : Nat
  params : List Int
  deriving DecidableEq

/-- The configuration fields under `config_ddpm.data` that the script reads. -/
structure DataConfig where
  n_channels : Nat
  image_size : Nat
  deriving Repr, DecidableEq

/-- The configuration fields under `config_ddpm.model` that decoder
construction reads. -/
structure ModelConfig where
  dim : Nat
  n_residual : Nat
  attn_resolutions : String
  dim_mults : String
  dropout : Rat
  n_heads : Nat
  deriving Repr, DecidableEq

/-- Embedding of decoder construction (source lines 43–56): parse the attention
resolutions and channel multipliers, then build the `SuperResModel` with
`in_channels` from the configured channel count and `out_channels` fixed at the
literal `3`; `none` models a raised parse error.  `params` stands for the
freshly initialized network parameters. -/
def mk_decoder (data : DataConfig) (model : ModelConfig) (params : List Int) :
    Option SuperResModel := do
  let attn ← parse_str model.attn_resolutions
  let mults ← parse_str model.dim_mults
  some
    { in_channels := data.n_channels
      model_channels := model.dim
      out_channels := 3
      num_res_blocks := model.n_residual
      attention_resolutions := attn
      channel_mult := mults
      use_checkpoint := false
      dropout := model.dropout
      num_heads := model.n_heads
      params := params }

/-- The online decoder together with its EMA target copy. -/
structure DecoderPair where
  online : SuperResModel
  ema : SuperResModel
  deriving DecidableEq

/-- Embedding of `ema_decoder = copy.deepcopy(decoder)` (source line 58): the
EMA target starts as an independent deep copy of the online decoder's value. -/
def mk_decoder_pair (decoder : SuperResModel) : DecoderPair :=
  { online := decoder, ema := decoder }

/-- Mutating the online decoder's parameters in place: only the online side of
the pair changes. -/
def set_online_params (p : DecoderPair) (ps : List Int) : DecoderPair :=
  { p with online := { p.online with params := ps } }

/-- Mutating the EMA decoder's parameters in place: only the EMA side of the
pair changes. -/
def set_ema_params (p : DecoderPair) (ps : List Int) : DecoderPair :=
  { p with ema := { p.ema with params := ps } }

/-! ## Predict driver (source lines 111–136) -/

/-- Modelled from the spec: `trainer.predict(ddpm_wrapper, val_loader)` with
the `ImageWriter` callback registered — iterate every batch exactly once in
loader order and invoke the Output Writer Callback once per batch; the output
indices a batch writes are its items' dataset positions.  The result is the
per-invocation list of written indices for a run over `n` samples with batch
size `B`. -/
def predict_writes (n B : Nat) : List (List Nat) :=
  dataLoaderBatches B (List.range n)

/-!
# Theorems
-/

theorem parse_str_eq_mapM (s : String) :
    parse_str s = (nonEmptyTokens s).mapM pyInt := rfl

theorem getLast?_cons_ne {α : Type} (a : α) (l : List α) (h : l ≠ []) :
    (a :: l).getLast? = l.getLast? := by
  cases l with
  | nil => exact absurd rfl h
  | cons b bs => rfl

theorem chunksGo_nil {α : Type} (B fuel : Nat) :
    chunksGo B fuel ([] : List α) = [] := by
  cases fuel <;> rfl

theorem chunksGo_ne_nil {α : Type} {B fuel : Nat} {l : List α} (hf : 0 < fuel)
    (hl : l ≠ []) : chunksGo B fuel l ≠ [] := by
  cases fuel with
  | zero => exact absurd hf (by omega)
  | succ n =>
    cases l with
    | nil => exact absurd rfl hl
    | cons x xs => simp [chunksGo]

theorem chunksGo_join {α : Type} {B : Nat} (hB : 0 < B) :
    ∀ (fuel : Nat) (l : List α), l.length ≤ fuel →
      (chunksGo B fuel l).flatten = l := by
  intro fuel
  induction fuel with
  | zero =>
    intro l hl
    have h : l = [] := List.eq_nil_of_length_eq_zero (Nat.le_zero.mp hl)
    subst h; rfl
  | succ n ih =>
    intro l hl
    cases l with
    | nil => rfl
    | cons x xs =>
      have hdrop : ((x :: xs).drop B).length ≤ n := by
        simp only [List.length_drop]
        have : (x :: xs).length ≤ n + 1 := hl
        omega
      simp only [chunksGo, List.flatten_cons, ih _ hdrop]
      exact List.take_append_drop B (x :: xs)

theorem ceil_div_step {m B : Nat} (hB : 0 < B) (hm : 0 < m) :
    (m - B + B - 1) / B + 1 = (m + B - 1) / B := by
  rcases Nat.lt_or_ge m B with hlt | hge
  · have h0 : m - B = 0 := by omega
    rw [h0, Nat.div_eq_of_lt (show 0 + B - 1 < B by omega)]
    have h1 : 1 * B ≤ m + B - 1 := by omega
    have h2 : m + B - 1 < 2 * B := by omega
    rw [Nat.div_eq_of_lt_le h1 h2]
  · have h1 : m - B + B - 1 = m - 1 := by omega
    have h2 : m - 1 + B = m + B - 1 := by omega
    rw [h1, ← Nat.add_div_right (m - 1) hB, h2]

theorem chunksGo_length {α : Type} {B : Nat} (hB : 0 < B) :
    ∀ (fuel : Nat) (l : List α), l.length ≤ fuel →
      (chunksGo B fuel l).length = (l.length + B - 1) / B := by
  intro fuel
  induction fuel with
  | zero =>
    intro l hl
    have h : l = [] := List.eq_nil_of_length_eq_zero (Nat.le_zero.mp hl)
    subst h
    simp [chunksGo_nil, Nat.div_eq_of_lt (show B - 1 < B by omega)]
  | succ n ih =>
    intro l hl
    cases l with
    | nil => simp [chunksGo_nil, Nat.div_eq_of_lt (show B - 1 < B by omega)]
    | cons x xs =>
      have hdrop : ((x :: xs).drop B).length ≤ n := by
        simp only [List.length_drop]
        have : (x :: xs).length ≤ n + 1 := hl
        omega
      simp only [chunksGo, List.length_cons, ih _ hdrop, List.length_drop]
      exact ceil_div_step hB (Nat.succ_pos xs.length)

theorem chunksGo_last_length {α : Type} {B : Nat} (hB : 0 < B) :
    ∀ (fuel : Nat) (l : List α), l.length ≤ fuel → ¬ B ∣ l.length →
      ((chunksGo B fuel l).getLast?).map List.length = some (l.length % B) := by
  intro fuel
  induction fuel with
  | zero =>
    intro l hl hdvd
    have h : l = [] := List.eq_nil_of_length_eq_zero (Nat.le_zero.mp hl)
    subst h
    exact absurd (dvd_zero B) hdvd
  | succ n ih =>
    intro l hl hdvd
    cases l with
    | nil => exact absurd (dvd_zero B) hdvd
    | cons x xs =>
      rcases Nat.lt_or_ge (x :: xs).length B with hlt | hge
      · have h0 : (x :: xs).drop B = [] := by
          apply List.eq_nil_of_length_eq_zero
          simp only [List.length_drop]
          omega
        simp only [chunksGo, h0, chunksGo_nil]
        simp only [List.getLast?_singleton, Option.map_some', Option.some_inj]
        rw [List.length_take, Nat.mod_eq_of_lt hlt]
        omega
      · have hdrop : ((x :: xs).drop B).length ≤ n := by
          simp only [List.length_drop]
          have : (x :: xs).length ≤ n + 1 := hl
          omega
        have hne : (x :: xs).drop B ≠ [] := by
          intro h
          have := congrArg List.length h
          simp only [List.length_drop, List.length_nil] at this
          have hlenB : (x :: xs).length = B := by omega
          exact hdvd (hlenB ▸ dvd_refl B)
        have hn : 0 < n := by
          have h1 : 1 ≤ ((x :: xs).drop B).length :=
            Nat.one_le_iff_ne_zero.mpr
              (fun h => hne (List.eq_nil_of_length_eq_zero h))
          omega
        have hdvd' : ¬ B ∣ ((x :: xs).drop B).length := by
          simp only [List.length_drop]
          intro hd
          apply hdvd
          have h2 : B ∣ (x :: xs).length - B + B := Nat.dvd_add hd (dvd_refl B)
          rwa [Nat.sub_add_cancel hge] at h2
        simp only [chunksGo]
        rw [getLast?_cons_ne _ _ (chunksGo_ne_nil hn hne), ih _ hdrop hdvd']
        simp only [List.length_drop, Option.some_inj]
        exact (Nat.mod_eq_sub_mod hge).symm


/-- When `mapM f` over `Option` succeeds, the output has the input's length and
is pointwise the successful value of `f`. -/
theorem mapM_option_spec {α β : Type} (f : α → Option β) :
    ∀ (xs : List α) (ys : List β), xs.mapM f = some ys →
      ys.length = xs.length ∧
        ∀ i : Nat, ∀ hx : i < xs.length, ∀ hy : i < ys.length,
          f (xs.get ⟨i, hx⟩) = some (ys.get ⟨i, hy⟩) := by
  intro xs
  induction xs with
  | nil =>
    intro ys h
    simp only [List.mapM_nil, pure, Option.some_inj] at h
    subst h
    exact ⟨rfl, fun i hx _ => absurd hx (Nat.not_lt_zero i)⟩
  | cons x xs ih =>
    intro ys h
    simp only [List.mapM_cons, Option.bind_eq_bind, Option.bind_eq_some,
      Option.some_inj, pure] at h
    obtain ⟨b, hb, zs, hzs, hys⟩ := h
    obtain ⟨hlen, hpt⟩ := ih zs hzs
    subst hys
    refine ⟨by simp [hlen], ?_⟩
    intro i hx hy
    cases i with
    | zero => simpa using hb
    | succ j =>
      have hx' : j < xs.length := Nat.lt_of_succ_lt_succ hx
      have hy' : j < zs.length := Nat.lt_of_succ_lt_succ hy
      simpa using hpt j hx' hy'

theorem ddpm_latent_length (seed n S : Nat) :
    (ddpm_latent_dataset seed n S).length = n := by
  simp [ddpm_latent_dataset]

theorem ddpm_latent_shape {seed n S : Nat} {t : Tensor}
    (h : t ∈ ddpm_latent_dataset seed n S) : t.shape = [3, S, S] := by
  simp only [ddpm_latent_dataset, List.mem_map] at h
  obtain ⟨i, _, rfl⟩ := h
  rfl

/-- C4: on every valid comma-separated string of integer tokens, `__parse_str`
returns the parsed integers of the non-empty tokens in their original order,
with empty tokens silently dropped, so its output length equals the number of
non-empty tokens; in particular parsing "1,,3," yields [1, 3]. -/
theorem parse_str_valid_spec (s : String) (l : List Int)
    (h : parse_str s = some l) :
    l.length = (nonEmptyTokens s).length ∧
      (∀ (i : Nat) (hx : i < (nonEmptyTokens s).length) (hy : i < l.length),
        pyInt ((nonEmptyTokens s).get ⟨i, hx⟩) = some (l.get ⟨i, hy⟩)) ∧
      parse_str "1,,3," = some [1, 3] := by
  have h' : (nonEmptyTokens s).mapM pyInt = some l := by
    rw [← parse_str_eq_mapM]; exact h
  obtain ⟨hlen, hpt⟩ := mapM_option_spec pyInt (nonEmptyTokens s) l h'
  exact ⟨hlen, fun i hx hy => hpt i hx hy, by decide⟩

theorem parse_str_valid_spec_witness :
    ([1, 3] : List Int).length = (nonEmptyTokens "1,,3,").length ∧
      pyInt ((nonEmptyTokens "1,,3,").get ⟨0, by decide⟩) =
        some (([1, 3] : List Int).get ⟨0, by decide⟩) :=
  ⟨(parse_str_valid_spec "1,,3," [1, 3] (by decide)).1,
    (parse_str_valid_spec "1,,3," [1, 3] (by decide)).2.1 0 (by decide)
      (by decide)⟩

/-- C5 counterexample: `__parse_str` applied to a `None` argument does not
return an empty sequence — `None.split(",")` raises an `AttributeError`. -/
theorem parse_str_none_counterexample :
    parse_str_py none =
      Except.error "AttributeError: NoneType object has no attribute split" :=
  rfl

/-- C5 (amended): `__parse_str` on the empty string returns an empty sequence
without raising, while on a `None` argument it raises an `AttributeError`
instead of returning a sequence. -/
theorem parse_str_empty_amended :
    parse_str_py (some "") = Except.ok [] ∧
      parse_str_py none =
        Except.error "AttributeError: NoneType object has no attribute split" :=
  ⟨rfl, rfl⟩

/-- C1: the relaxed composite-wrapper checkpoint load succeeds whenever the
snapshot provides every diffusion-network parameter — in particular when it
lacks all parameters of the attached VAE substructure — and raises whenever the
snapshot omits a diffusion-network parameter (one not attributable to the VAE
parameter group). -/
theorem composite_checkpoint_load_spec (dp vp snap : List String) :
    ((∀ p ∈ dp, p ∈ snap) → composite_load dp vp snap = .ok ()) ∧
      (∀ p ∈ dp, p ∉ snap → p ∉ vp →
        composite_load dp vp snap =
          .error "missing parameter not attributable to the VAE substructure")
    := by
  constructor
  · intro hall
    have hcond : ((dp ++ vp).filter (fun p => decide (p ∉ snap))).all
        (fun p => decide (p ∈ vp)) = true := by
      simp only [List.all_eq_true, List.mem_filter, decide_eq_true_iff]
      rintro q ⟨hq, hnotin⟩
      rcases List.mem_append.mp hq with h1 | h1
      · exact absurd (hall q h1) hnotin
      · exact h1
    simp only [composite_load, relaxed_load, hcond, if_true]
  · intro p hp hsnap hvp
    have hcond : ¬ (((dp ++ vp).filter (fun p => decide (p ∉ snap))).all
        (fun p => decide (p ∈ vp)) = true) := by
      simp only [List.all_eq_true, List.mem_filter, decide_eq_true_iff]
      intro hcontra
      exact hvp (hcontra p ⟨List.mem_append_left _ hp, hsnap⟩)
    simp only [composite_load, relaxed_load]
    rw [if_neg hcond]

theorem composite_checkpoint_load_spec_witness :
    composite_load ["net.w"] ["vae.w"] ["net.w"] = .ok () ∧
      composite_load ["net.w"] ["vae.w"] ["vae.w"] =
        .error "missing parameter not attributable to the VAE substructure" :=
  ⟨(composite_checkpoint_load_spec ["net.w"] ["vae.w"] ["net.w"]).1 (by decide),
    (composite_checkpoint_load_spec ["net.w"] ["vae.w"] ["vae.w"]).2 "net.w"
      (by decide) (by decide) (by decide)⟩

/-- C2: for every image dataset and configured sample count, the zipped predict
dataset's length is the minimum of the subsampled image dataset's length and
the sample count (the noise dataset being exactly that long), and item `i` is
the purely positional pair of the `i`-th reconstruction source and the `i`-th
noise tensor. -/
theorem pred_dataset_zip_spec {α : Type} (images : List α) (seed N S : Nat) :
    (pred_dataset images seed N S).length =
        min (ReconstructionDataset images N).length N ∧
      ∀ (i : Nat) (h : i < (pred_dataset images seed N S).length),
        ∃ (h1 : i < (ReconstructionDataset images N).length)
          (h2 : i < (ddpm_latent_dataset seed N S).length),
          (pred_dataset images seed N S).get ⟨i, h⟩ =
            ((ReconstructionDataset images N).get ⟨i, h1⟩,
              (ddpm_latent_dataset seed N S).get ⟨i, h2⟩) := by
  constructor
  · simp [pred_dataset, ZipDataset, List.length_zip, ddpm_latent_length]
  · intro i h
    have h' : i < ((ReconstructionDataset images N).zip
        (ddpm_latent_dataset seed N S)).length := h
    exact ⟨List.lt_length_left_of_zip h', List.lt_length_right_of_zip h',
      List.get_zip⟩

theorem pred_dataset_zip_spec_witness :
    (pred_dataset [(5 : Nat), 6, 7] 0 2 1).length =
        min (ReconstructionDataset [(5 : Nat), 6, 7] 2).length 2 ∧
      ∃ (h1 : 0 < (ReconstructionDataset [(5 : Nat), 6, 7] 2).length)
        (h2 : 0 < (ddpm_latent_dataset 0 2 1).length),
        (pred_dataset [(5 : Nat), 6, 7] 0 2 1).get ⟨0, by decide⟩ =
          ((ReconstructionDataset [(5 : Nat), 6, 7] 2).get ⟨0, h1⟩,
            (ddpm_latent_dataset 0 2 1).get ⟨0, h2⟩) :=
  ⟨(pred_dataset_zip_spec [(5 : Nat), 6, 7] 0 2 1).1,
    (pred_dataset_zip_spec [(5 : Nat), 6, 7] 0 2 1).2 0 (by decide)⟩

/-- C3: the batch loader never shuffles and never drops a partial final batch:
its batches concatenate back to the dataset in order (consecutive groups of at
most `B` items), there are ceil(n/B) of them, the last has `n mod B` items when
`B` does not divide `n`, and items [0..9] with batch size 4 yield exactly
[0,1,2,3], [4,5,6,7], [8,9]. -/
theorem val_loader_batches_spec {α : Type} (l : List α) (B : Nat) (hB : 0 < B) :
    (dataLoaderBatches B l).flatten = l ∧
      (dataLoaderBatches B l).length = (l.length + B - 1) / B ∧
      (¬ B ∣ l.length →
        ((dataLoaderBatches B l).getLast?).map List.length =
          some (l.length % B)) ∧
      dataLoaderBatches 4 (List.range 10) =
        [[0, 1, 2, 3], [4, 5, 6, 7], [8, 9]] :=
  ⟨chunksGo_join hB l.length l le_rfl, chunksGo_length hB l.length l le_rfl,
    fun h => chunksGo_last_length hB l.length l le_rfl h, by decide⟩

theorem val_loader_batches_spec_witness :
    (dataLoaderBatches 4 (List.range 10)).flatten = List.range 10 ∧
      ((dataLoaderBatches 4 (List.range 10)).getLast?).map List.length =
        some 2 :=
  ⟨(val_loader_batches_spec (List.range 10) 4 (by decide)).1,
    (val_loader_batches_spec (List.range 10) 4 (by decide)).2.2.1 (by decide)⟩

/-- C6: for every configured sample count and image size, the noise dataset has
exactly `n_samples` items, each of shape `(3, image_size, image_size)`, and
constructing it twice under the same global seed yields bit-identical noise
tensors. -/
theorem latent_dataset_spec (seed n S : Nat) :
    (ddpm_latent_dataset seed n S).length = n ∧
      (∀ t ∈ ddpm_latent_dataset seed n S, t.shape = [3, S, S]) ∧
      ddpm_latent_dataset seed n S = ddpm_latent_dataset seed n S :=
  ⟨ddpm_latent_length seed n S, fun _ ht => ddpm_latent_shape ht, rfl⟩

theorem latent_dataset_spec_witness :
    (ddpm_latent_dataset 7 2 1).length = 2 ∧
      ((ddpm_latent_dataset 7 2 1).get ⟨0, by decide⟩).shape = [3, 1, 1] :=
  ⟨(latent_dataset_spec 7 2 1).1,
    (latent_dataset_spec 7 2 1).2.1 _ (List.get_mem _ _ _)⟩

/-- C7: the device configurator is a pure mapping from the specifier string to
an execution-configuration record: a string starting with "gpu" yields the
parsed accelerator ids plus the persistent-worker flag set true; the exact
string "tpu" yields 8 accelerator cores; every other string yields no backend
options; and "gpu:0,1" parses to accelerator ids [0, 1]. -/
theorem setup_devices_spec (device : String) :
    (startsWithGpu device.data = true →
      setup_devices device =
        { gpus := some (configure_device_ids device)
          tpu_cores := none
          persistent_workers := some true }) ∧
      (device = "tpu" →
        setup_devices device =
          { gpus := none, tpu_cores := some 8, persistent_workers := none }) ∧
      (startsWithGpu device.data = false → device ≠ "tpu" →
        setup_devices device =
          { gpus := none, tpu_cores := none, persistent_workers := none }) ∧
      configure_device_ids "gpu:0,1" = [0, 1] := by
  refine ⟨fun hgpu => ?_, fun htpu => ?_, fun hgpu htpu => ?_, by decide⟩
  · simp [setup_devices, hgpu]
  · subst htpu
    simp [setup_devices, startsWithGpu]
  · simp [setup_devices, hgpu, htpu]

theorem setup_devices_spec_witness :
    setup_devices "cpu" =
      { gpus := none, tpu_cores := none, persistent_workers := none } :=
  (setup_devices_spec "cpu").2.2.1 (by decide) (by decide)

/-- C8: in an end-to-end run with `n_samples = 10`, `batch_size = 4` and
`device = "cpu"`, the driver invokes the Output Writer Callback exactly 3 times
— once per batch — the batches' sample counts sum to 10, and each output index
0..9 is written exactly once (the written indices are exactly 0..9 in order). -/
theorem predict_run_end_to_end :
    (predict_writes 10 4).length = 3 ∧
      ((predict_writes 10 4).map List.length).sum = 10 ∧
      (predict_writes 10 4).flatten = List.range 10 ∧
      setup_devices "cpu" =
        { gpus := none, tpu_cores := none, persistent_workers := none } := by
  decide

/-- C9: the EMA target decoder is constructed as a deep copy of the online
decoder: immediately after construction the two instances are equal in value
(parameters included), and mutating the parameters of either one leaves the
parameters of the other at their original values. -/
theorem ema_deepcopy_spec (d : SuperResModel) (ps : List Int) :
    (mk_decoder_pair d).ema = (mk_decoder_pair d).online ∧
      (set_online_params (mk_decoder_pair d) ps).online.params = ps ∧
      (set_online_params (mk_decoder_pair d) ps).ema.params = d.params ∧
      (set_ema_params (mk_decoder_pair d) ps).ema.params = ps ∧
      (set_ema_params (mk_decoder_pair d) ps).online.params = d.params :=
  ⟨rfl, rfl, rfl, rfl, rfl⟩

/-- C10: for every configuration, the decoder's output channel count and the
channel dimension of the sampled latent noise tensors are fixed at the literal
3, independent of the configured `n_channels` (which only sets the decoder's
input channel count); only the spatial dimensions follow `image_size`. -/
theorem channel_invariants_spec (data : DataConfig) (model : ModelConfig)
    (params : List Int) (d : SuperResModel)
    (h : mk_decoder data model params = some d) :
    d.out_channels = 3 ∧
      d.in_channels = data.n_channels ∧
      ∀ (seed n : Nat) (t : Tensor),
        t ∈ ddpm_latent_dataset seed n data.image_size →
          t.shape = [3, data.image_size, data.image_size] := by
  cases hattn : parse_str model.attn_resolutions with
  | none => simp [mk_decoder, hattn] at h
  | some attn =>
    cases hmults : parse_str model.dim_mults with
    | none => simp [mk_decoder, hattn, hmults] at h
    | some mults =>
      simp only [mk_decoder, hattn, hmults, Option.bind_eq_bind,
        Option.some_bind, Option.some_inj] at h
      subst h
      exact ⟨rfl, rfl, fun seed n t ht => ddpm_latent_shape ht⟩

theorem channel_invariants_spec_witness :
    ∃ d : SuperResModel,
      mk_decoder ⟨7, 2⟩ ⟨8, 1, "16", "1,2", 0, 1⟩ [] = some d ∧
        d.out_channels = 3 ∧ d.in_channels = 7 ∧
        ((ddpm_latent_dataset 0 1 2).get ⟨0, by decide⟩).shape = [3, 2, 2] := by
  refine ⟨{ in_channels := 7, model_channels := 8, out_channels := 3
            num_res_blocks := 1, attention_resolutions := [16]
            channel_mult := [1, 2], use_checkpoint := false, dropout := 0
            num_heads := 1, params := [] }, rfl, ?_⟩
  obtain ⟨h1, h2, h3⟩ := channel_invariants_spec ⟨7, 2⟩ ⟨8, 1, "16", "1,2", 0, 1⟩
    [] _ rfl
  exact ⟨h1, h2, h3 0 1 _ (List.get_mem _ _ _)⟩

end GenerateRecons
